import Mathlib

/-!
Verification development for the map-reduce metadata aggregation engine of
`document_analyzer` (file `src/document_analyzer/ai/document_analyze.py`,
method `DocumentAnalyzerAgent._process_batches_to_metadata` and its helpers).

Texts are modelled as `List Char`; the LLM is an opaque deterministic function
from prompt to response; token counting is an opaque function from text to a
natural number.  The fallible parts of the Python code (unguarded
`json.loads`, item assignment / attribute access on non-dict values) are
modelled with `Except`.
-/

set_option autoImplicit false
set_option maxRecDepth 100000

namespace DocAnalyzer

/-- Characters stripped by Python `str.strip()` in the ASCII range:
space, tab, newline, carriage return, vertical tab, form feed. -/
def pyIsSpace (c : Char) : Bool :=
  c = ' ' || c = '\t' || c = '\n' || c = '\r' || c = Char.ofNat 11 || c = Char.ofNat 12

/-- Python `str.strip()` on a character list: drop leading and trailing
whitespace. -/
def pyStrip (s : List Char) : List Char :=
  ((s.dropWhile pyIsSpace).reverse.dropWhile pyIsSpace).reverse

/-- Loop of the batch-joining (packing) step of `_process_batches_to_metadata`
(document_analyze.py lines 136-143): `current` is the running accumulator;
a batch that fits (`len(current) + len(batch) <= limit`) is appended as
`current += " " + batch`; otherwise `current.strip()` is closed as a chunk and
the accumulator restarts as the batch itself.  After the loop the accumulator
is closed as a final chunk if non-empty (lines 144-145). -/
def joinBatchesGo (limit : Nat) : List (List Char) → List Char → List (List Char)
  | [], current => if current.isEmpty then [] else [pyStrip current]
  | b :: bs, current =>
    if current.length + b.length ≤ limit then
      joinBatchesGo limit bs (current ++ ' ' :: b)
    else
      pyStrip current :: joinBatchesGo limit bs b

/-- The packing step (`joined_batches`) of `_process_batches_to_metadata`
(document_analyze.py lines 135-145), starting from an empty accumulator. -/
def joinBatches (limit : Nat) (batches : List (List Char)) : List (List Char) :=
  joinBatchesGo limit batches []

/-- Space-joined concatenation of a list of batches: the batches in order with
one single space between consecutive batches. -/
def sjoin : List (List Char) → List Char
  | [] => []
  | [b] => b
  | b :: bs => b ++ ' ' :: sjoin bs

/-- Segment-level mirror of `joinBatchesGo`: runs the very same accumulator
loop (same test on `current`) but additionally records, for each produced
chunk, the consecutive segment of input batches it was accumulated from.
Unlike `joinBatchesGo` it always emits the final segment, even when the final
accumulator is empty. -/
def segmentsGo (limit : Nat) : List (List Char) → List Char → List (List Char) →
    List (List (List Char))
  | [], _, seg => [seg]
  | b :: bs, current, seg =>
    if current.length + b.length ≤ limit then
      segmentsGo limit bs (current ++ ' ' :: b) (seg ++ [b])
    else
      seg :: segmentsGo limit bs b [b]

/-! ### JSON values and a model of Python `json.loads` -/

/-- JSON-compatible values as produced by Python `json.loads` on the fragment
of JSON used by this program (floating-point literals are outside the scope of
this embedding; the parser below rejects them). -/
inductive Json where
  | str : List Char → Json
  | num : Int → Json
  | bool : Bool → Json
  | null : Json
  | arr : List Json → Json
  | obj : List (List Char × Json) → Json

/-- Python `dict` item assignment `d[k] = v` on an insertion-ordered
association list: replace the value at an existing key in place, otherwise
append the new key at the end. -/
def dictSet : List (List Char × Json) → List Char → Json → List (List Char × Json)
  | [], k, v => [(k, v)]
  | (k', v') :: rest, k, v =>
    if k' = k then (k, v) :: rest else (k', v') :: dictSet rest k v

/-- Python `dict` lookup `d[k]` / `d.get(k)` on an association list. -/
def dictGet : List (List Char × Json) → List Char → Option Json
  | [], _ => none
  | (k', v') :: rest, k => if k' = k then some v' else dictGet rest k

/-- Whitespace skipped by the JSON grammar (and by Python `json.loads`):
space, tab, newline, carriage return. -/
def jsonWs (c : Char) : Bool :=
  c = ' ' || c = '\t' || c = '\n' || c = '\r'

/-- Drop leading JSON whitespace. -/
def skipWs (s : List Char) : List Char := s.dropWhile jsonWs

/-- Translation of a JSON string escape character to the character it
denotes.  The `\uXXXX` escape is not modelled (no input of this development
uses it); any unsupported escape is a parse failure, as in strict JSON. -/
def escCharFor (c : Char) : Option Char :=
  if c = '"' then some '"'
  else if c = '\\' then some '\\'
  else if c = '/' then some '/'
  else if c = 'n' then some '\n'
  else if c = 't' then some '\t'
  else if c = 'r' then some '\r'
  else if c = 'b' then some (Char.ofNat 8)
  else if c = 'f' then some (Char.ofNat 12)
  else none

/-- Parse the body of a JSON string after the opening quote; returns the
decoded content and the remainder after the closing quote. -/
def parseJString : List Char → Option (List Char × List Char)
  | [] => none
  | c :: rest =>
    if c = '"' then some ([], rest)
    else if c = '\\' then
      match rest with
      | [] => none
      | e :: rest2 =>
        match escCharFor e with
        | some ec => (parseJString rest2).map (fun p => (ec :: p.1, p.2))
        | none => none
    else (parseJString rest).map (fun p => (c :: p.1, p.2))

/-- Parse a JSON integer literal (optional minus sign followed by digits).
A fractional part or exponent makes the literal a float, which this embedding
does not model: such input is rejected. -/
def parseNumber (s : List Char) : Option (Json × List Char) :=
  let p := match s with
    | '-' :: rest => (true, rest)
    | _ => (false, s)
  let q := p.2.span Char.isDigit
  if q.1.isEmpty then none
  else match q.2 with
    | '.' :: _ => none
    | 'e' :: _ => none
    | 'E' :: _ => none
    | _ =>
      let n : Nat := q.1.foldl (fun a c => a * 10 + (c.toNat - 48)) 0
      some (Json.num (if p.1 then -(n : Int) else (n : Int)), q.2)

mutual

/-- Parse one JSON value (with surrounding whitespace handling on the left),
returning the value and the unconsumed remainder.  The fuel argument bounds
the nesting depth; `jsonLoads` supplies more fuel than any input can use. -/
def parseValue : Nat → List Char → Option (Json × List Char)
  | 0, _ => none
  | fuel + 1, s =>
    match skipWs s with
    | [] => none
    | c :: rest =>
      if c = Char.ofNat 123 then
        match skipWs rest with
        | Char.ofNat 125 :: r2 => some (Json.obj [], r2)
        | r1 => (parseMembers fuel r1).map (fun p =>
            (Json.obj (p.1.foldl (fun d kv => dictSet d kv.1 kv.2) []), p.2))
      else if c = '[' then
        match skipWs rest with
        | ']' :: r2 => some (Json.arr [], r2)
        | r1 => (parseElems fuel r1).map (fun p => (Json.arr p.1, p.2))
      else if c = '"' then
        (parseJString rest).map (fun p => (Json.str p.1, p.2))
      else if c = 'n' then
        if "ull".toList.isPrefixOf rest then some (Json.null, rest.drop 3) else none
      else if c = 't' then
        if "rue".toList.isPrefixOf rest then some (Json.bool true, rest.drop 3) else none
      else if c = 'f' then
        if "alse".toList.isPrefixOf rest then some (Json.bool false, rest.drop 4) else none
      else parseNumber (c :: rest)

/-- Parse the members of a JSON object after the opening brace (first
non-empty member expected at the head of the input). -/
def parseMembers : Nat → List Char → Option (List (List Char × Json) × List Char)
  | 0, _ => none
  | fuel + 1, s =>
    match s with
    | '"' :: rest =>
      match parseJString rest with
      | none => none
      | some (k, r1) =>
        match skipWs r1 with
        | ':' :: r2 =>
          match parseValue fuel r2 with
          | none => none
          | some (v, r3) =>
            match skipWs r3 with
            | ',' :: r4 =>
              (parseMembers fuel (skipWs r4)).map (fun p => ((k, v) :: p.1, p.2))
            | Char.ofNat 125 :: r4 => some ([(k, v)], r4)
            | _ => none
        | _ => none
    | _ => none

/-- Parse the elements of a JSON array after the opening bracket (first
element expected at the head of the input). -/
def parseElems : Nat → List Char → Option (List Json × List Char)
  | 0, _ => none
  | fuel + 1, s =>
    match parseValue fuel s with
    | none => none
    | some (v, r1) =>
      match skipWs r1 with
      | ',' :: r2 => (parseElems fuel r2).map (fun p => (v :: p.1, p.2))
      | ']' :: r2 => some ([v], r2)
      | _ => none

end

/-- Model of Python `json.loads`: parse one JSON value and require that only
whitespace remains (otherwise Python raises `Extra data`); `none` models a
raised `json.JSONDecodeError`. -/
def jsonLoads (s : List Char) : Option Json :=
  match parseValue (s.length + 1) s with
  | some (v, rest) => if (skipWs rest).isEmpty then some v else none
  | none => none

/-- Model of `re.search(r"\x7b.*\x7d", s, re.DOTALL)` (document_analyze.py
lines 166, 208, 235): with a greedy `.*` matching newlines, the match, when it
exists, spans from the first opening brace of the string to the last closing
brace, and exists exactly when some opening brace occurs strictly before the
last closing brace. -/
def braceSpan (s : List Char) : Option (List Char) :=
  match s.findIdx? (· = Char.ofNat 123), s.reverse.findIdx? (· = Char.ofNat 125) with
  | some i, some k =>
    let j := s.length - 1 - k
    if i < j then some ((s.drop i).take (j - i + 1)) else none
  | _, _ => none

/-! ### The aggregator `_process_batches_to_metadata` -/

/-- Exceptions the Python code can raise while aggregating:
`json.JSONDecodeError` from an unguarded `json.loads`, `TypeError` from item
assignment on a non-dict value, `AttributeError` from `.keys()`/`.get` on a
non-dict value. -/
inductive PyErr where
  | jsonDecodeError
  | typeError
  | attributeError
deriving DecidableEq

/-- Conversation entry appended by `_log_interaction` (document_analyze.py
lines 91-109); the wall-clock timestamp is not modelled. -/
structure LogEntry where
  question : List Char
  answer : List Char
  files : List (List Char)
  inputTokens : Option Nat
  outputTokens : Option Nat

/-- Entry made by `_log_interaction` for one model call. -/
def mkLogEntry (q a : List Char) (files : List (List Char)) (it ot : Nat) : LogEntry :=
  { question := q, answer := a, files := files, inputTokens := some it,
    outputTokens := some ot }

/-- Observable side effects of one aggregation run: the generator calls made
(prompt/response pairs, in order) and the conversation log
(`self.conversation`) entries appended. -/
structure AggTrace where
  calls : List (List Char × List Char)
  log : List LogEntry

/-- Result of `_process_batches_to_metadata`: either the returned triple
(metadata dict, total input tokens, total output tokens) or a raised
exception, together with the trace accumulated up to the return or raise. -/
structure AggResult where
  result : Except PyErr (List (List Char × Json) × Nat × Nat)
  trace : AggTrace

/-- Two-tier response parsing as guarded in the single-chunk branch
(document_analyze.py lines 161-175): direct `json.loads`, then `json.loads`
of the greedy brace-delimited span; `none` models the case where both fail
and the code falls back to an empty dict. -/
def parseResponse (s : List Char) : Option Json :=
  match jsonLoads s with
  | some v => some v
  | none =>
    match braceSpan s with
    | some sp => jsonLoads sp
    | none => none

/-- Chunk-response parsing in the multi-chunk branch (document_analyze.py
lines 202-213).  Unlike the single-chunk branch, the `json.loads` applied to
the regex match (line 210) is *not* wrapped in a `try`, so a response whose
brace-delimited span is not valid JSON raises `json.JSONDecodeError`. -/
def parseChunkResponse (s : List Char) : Except PyErr Json :=
  match jsonLoads s with
  | some v => .ok v
  | none =>
    match braceSpan s with
    | some sp =>
      match jsonLoads sp with
      | some v => .ok v
      | none => .error .jsonDecodeError
    | none => .ok (Json.obj [])

/-- The parse loop over all chunk responses (document_analyze.py lines
202-213), stopping at the first raised error. -/
def parseChunks : List (List Char) → Except PyErr (List Json)
  | [] => .ok []
  | r :: rest =>
    match parseChunkResponse r with
    | .error e => .error e
    | .ok v =>
      match parseChunks rest with
      | .error e => .error e
      | .ok vs => .ok (v :: vs)

/-- Fallback of the reduction-response parse (document_analyze.py lines
233-244): parse the brace-delimited span and index it at `key`; every failure
(no span, invalid JSON, non-dict value, missing key) is caught and degrades to
an empty dict value. -/
def reduceFallback (s : List Char) (key : List Char) : Json :=
  match braceSpan s with
  | some sp =>
    match jsonLoads sp with
    | some (Json.obj d) => (dictGet d key).getD (Json.obj [])
    | some _ => Json.obj []
    | none => Json.obj []
  | none => Json.obj []

/-- Reduction-response parse (document_analyze.py lines 231-244):
`json.loads(response)[key]` guarded by a `try` whose handler runs
`reduceFallback`. -/
def parseReduceResponse (s : List Char) (key : List Char) : Json :=
  match jsonLoads s with
  | some (Json.obj d) =>
    match dictGet d key with
    | some v => v
    | none => reduceFallback s key
  | some _ => reduceFallback s key
  | none => reduceFallback s key

/-- Structural worker for `replaceAll`: the fuel argument is initialized to
the string length, which suffices because every step consumes at least one
character when the pattern is non-empty. -/
def replaceAllGo (old new : List Char) : Nat → List Char → List Char
  | 0, s => s
  | _ + 1, [] => []
  | fuel + 1, c :: rest =>
    if old.isPrefixOf (c :: rest) then
      new ++ replaceAllGo old new fuel ((c :: rest).drop old.length)
    else
      c :: replaceAllGo old new fuel rest

/-- Python `str.replace(old, new)`: replace every non-overlapping occurrence
of `old`, scanning left to right.  The Python behavior for an empty pattern
is irrelevant here (the code only replaces the non-empty literal
`"following document"`); an empty `old` leaves the string unchanged. -/
def replaceAll (old new : List Char) (s : List Char) : List Char :=
  if old.isEmpty then s else replaceAllGo old new s.length s

/-- Apostrophe character (used by Python `repr` of strings). -/
def squote : Char := Char.ofNat 39

mutual

/-- Model of Python `str()`/`repr()` on the JSON-compatible values handled by
this program (used by the f-string interpolation `f"... {values} ..."` at
document_analyze.py line 221): strings single-quoted (escape sequences inside
the string are not re-escaped by this model), integers in decimal, booleans as
`True`/`False`, `None`, lists bracketed with `, ` separators, dicts braced
with `: ` and `, ` separators. -/
def reprValue : Json → List Char
  | .str s => squote :: (s ++ [squote])
  | .num n => if n < 0 then '-' :: Nat.toDigits 10 n.natAbs else Nat.toDigits 10 n.natAbs
  | .bool b => if b then "True".toList else "False".toList
  | .null => "None".toList
  | .arr vs => '[' :: (reprElems vs ++ [']'])
  | .obj ms => Char.ofNat 123 :: (reprMembers ms ++ [Char.ofNat 125])

/-- Comma-separated `repr` of list elements. -/
def reprElems : List Json → List Char
  | [] => []
  | [v] => reprValue v
  | v :: vs => reprValue v ++ ',' :: ' ' :: reprElems vs

/-- Comma-separated `repr` of dict members. -/
def reprMembers : List (List Char × Json) → List Char
  | [] => []
  | [kv] => squote :: (kv.1 ++ squote :: ':' :: ' ' :: reprValue kv.2)
  | kv :: ms =>
    squote :: (kv.1 ++ squote :: ':' :: ' ' :: reprValue kv.2) ++ ',' :: ' ' :: reprMembers ms

end

/-- Marker concatenated in the single-chunk prompt (line 151). -/
def docMarker : List Char := "\n\nDocument:\n".toList

/-- Marker concatenated in the multi-chunk extraction prompts (line 187). -/
def textMarker : List Char := "\n\nText:\n".toList

/-- Reserved key `total_input_tokens` (line 252). -/
def totInKey : List Char := "total_input_tokens".toList

/-- Reserved key `total_output_tokens` (line 253). -/
def totOutKey : List Char := "total_output_tokens".toList

/-- The template phrase replaced in the multi-chunk branch (line 186). -/
def followingDoc : List Char := "following document".toList

/-- The replacement phrase `f"following text, which is the batch {i} of a
document"` (line 186): it names the zero-based chunk index `i`, and nothing
else is interpolated. -/
def batchPhrase (i : Nat) : List Char :=
  "following text, which is the batch ".toList ++ Nat.toDigits 10 i
    ++ " of a document".toList

/-- Extraction prompt for chunk `i` in the multi-chunk branch (lines
185-189): the template with the complete-document phrase rewritten, then the
text marker, then the chunk truncated to the configured limit. -/
def chunkPrompt (template : List Char) (limit i : Nat) (chunk : List Char) : List Char :=
  replaceAll followingDoc (batchPhrase i) template ++ textMarker ++ chunk.take limit

/-- Record of one chunk-extraction model call (lines 184-201). -/
structure CallRec where
  prompt : List Char
  response : List Char
  inTok : Nat
  outTok : Nat

/-- The extraction loop `for i, batch in enumerate(joined_batches)` (lines
184-201): one generator call per chunk, in order, recording prompt, response
and token counts.  Note the loop appends to `batch_prompts` etc. but never
calls `_log_interaction`. -/
def extractChunks (limit : Nat) (count : List Char → Nat) (gen : List Char → List Char)
    (template : List Char) : List (List Char) → Nat → List CallRec
  | [], _ => []
  | ch :: rest, i =>
    let p := chunkPrompt template limit i ch
    let r := gen p
    { prompt := p, response := r, inTok := count p, outTok := count r } ::
      extractChunks limit count gen template rest (i + 1)

/-- The list comprehension `[bj.get(key, "") for bj in batch_jsons]` (line
220): `.get` with default empty string; a non-dict entry raises
`AttributeError`. -/
def getValues (key : List Char) : List Json → Except PyErr (List Json)
  | [] => .ok []
  | Json.obj d :: rest =>
    (getValues key rest).map (fun vs => ((dictGet d key).getD (Json.str [])) :: vs)
  | _ :: _ => .error .attributeError

/-- The reduction prompt f-string (document_analyze.py line 221). -/
def reducePrompt (key : List Char) (values : List Json) : List Char :=
  "You are combining the results of a document analysis. The key to combine is ".toList
  ++ squote :: key ++ squote ::
  ". Here are the values for this key from different batches: ".toList
  ++ reprValue (Json.arr values)
  ++ "\nGenerate the final value for ".toList
  ++ squote :: key ++ squote ::
  ".Return only a valid JSON object with only one field: the key. And the value must be in the same format as in the inputs: ie, if the inputs are lists, list, if the inputs are strings, string ...".toList

/-- The reduction loop `for key in keys` (document_analyze.py lines 219-251):
one generator call per key of the first chunk's parsed object, accumulating
token totals, assigning the reduced value into `metadata`, and appending one
conversation-log entry per call. -/
def reduceLoop (count : List Char → Nat) (gen : List Char → List Char)
    (filesRef : List (List Char)) (batchJsons : List Json) :
    List (List Char) → List (List Char × Json) → Nat → Nat → AggTrace →
    (Except PyErr (List (List Char × Json) × Nat × Nat)) × AggTrace
  | [], metadata, ti, tOut, trace => (.ok (metadata, ti, tOut), trace)
  | key :: keys, metadata, ti, tOut, trace =>
    match getValues key batchJsons with
    | .error e => (.error e, trace)
    | .ok values =>
      let rp := reducePrompt key values
      let rit := count rp
      let resp := gen rp
      let rot := count resp
      let v := parseReduceResponse resp key
      let trace' : AggTrace :=
        { calls := trace.calls ++ [(rp, resp)],
          log := trace.log ++ [mkLogEntry rp resp filesRef rit rot] }
      reduceLoop count gen filesRef batchJsons keys (dictSet metadata key v)
        (ti + rit) (tOut + rot) trace'

/-- Single-chunk branch of `_process_batches_to_metadata` (lines 148-178),
followed by the reserved-key assignments and return (lines 252-254).  Direct
parse succeeding with a non-dict value makes the item assignment
`metadata["total_input_tokens"] = ...` raise `TypeError`; the conversation
entry was already appended at that point (line 176). -/
def singleChunkRun (limit : Nat) (count : List Char → Nat) (gen : List Char → List Char)
    (template : List Char) (filesRef : List (List Char)) (text : List Char) : AggResult :=
  let prompt := template ++ docMarker ++ text.take limit
  let inTok := count prompt
  let response := gen prompt
  let outTok := count response
  let metadata := (parseResponse response).getD (Json.obj [])
  let trace : AggTrace :=
    { calls := [(prompt, response)],
      log := [mkLogEntry prompt response filesRef inTok outTok] }
  match metadata with
  | Json.obj d =>
    { result := .ok (dictSet (dictSet d totInKey (Json.num (inTok : Int))) totOutKey
        (Json.num (outTok : Int)), inTok, outTok),
      trace := trace }
  | _ => { result := .error .typeError, trace := trace }

/-- Rendering of the reduction loop's outcome into the returned value: on
success the reserved-key assignments of lines 252-253 are applied to the
reduced metadata and the triple of line 254 is returned; a raised error
propagates with the trace accumulated so far. -/
def finishReduce (p : (Except PyErr (List (List Char × Json) × Nat × Nat)) × AggTrace) :
    AggResult :=
  match p with
  | (.ok (md, ti', tOut'), tr) =>
    { result := .ok (dictSet (dictSet md totInKey (Json.num (ti' : Int))) totOutKey
        (Json.num (tOut' : Int)), ti', tOut'),
      trace := tr }
  | (.error e, tr) => { result := .error e, trace := tr }

/-- Continuation of the multi-chunk branch after the parse loop: the early
token-only return when `batch_jsons` is empty (lines 214-216), then
`keys = list(batch_jsons[0].keys())` (line 217, raising `AttributeError` when
the first parsed value is not a dict), then the reduction loop over those
keys. -/
def multiFinish (count : List Char → Nat) (gen : List Char → List Char)
    (filesRef : List (List Char)) (ti tOut : Nat) (trace0 : AggTrace) :
    List Json → AggResult
  | [] =>
    { result := .ok ([(totInKey, Json.num (ti : Int)), (totOutKey, Json.num (tOut : Int))],
        ti, tOut),
      trace := trace0 }
  | bj0 :: bjs =>
    match bj0 with
    | Json.obj d0 =>
      finishReduce (reduceLoop count gen filesRef (Json.obj d0 :: bjs)
        (d0.map Prod.fst) [] ti tOut trace0)
    | _ => { result := .error .attributeError, trace := trace0 }

/-- Multi-chunk (or zero-chunk) branch of `_process_batches_to_metadata`
(lines 179-251), followed by the reserved-key assignments and return (lines
252-254): extraction loop, parse loop, then `multiFinish`. -/
def multiChunkRun (limit : Nat) (count : List Char → Nat) (gen : List Char → List Char)
    (template : List Char) (filesRef : List (List Char)) (joined : List (List Char)) :
    AggResult :=
  let ext := extractChunks limit count gen template joined 0
  let ti := (ext.map CallRec.inTok).sum
  let tOut := (ext.map CallRec.outTok).sum
  let trace0 : AggTrace := { calls := ext.map (fun c => (c.prompt, c.response)), log := [] }
  match parseChunks (ext.map CallRec.response) with
  | .error e => { result := .error e, trace := trace0 }
  | .ok bjs => multiFinish count gen filesRef ti tOut trace0 bjs

/-- Shallow embedding of `DocumentAnalyzerAgent._process_batches_to_metadata`
(document_analyze.py lines 130-254).  `limit` is `self.llm_token_limit`,
`count` is `self.count_tokens`, `gen` is the opaque text generator
(`self.llm.generate_text` or `self.llm.__call__`), `batches` the input list,
`template` the prompt template and `filesRef` the referenced files. -/
def processBatchesToMetadata (limit : Nat) (count : List Char → Nat)
    (gen : List Char → List Char) (batches : List (List Char))
    (template : List Char) (filesRef : List (List Char)) : AggResult :=
  match joinBatches limit batches with
  | [text] => singleChunkRun limit count gen template filesRef text
  | joined => multiChunkRun limit count gen template filesRef joined

/-! ### Concrete fixtures used in witnesses and counterexamples -/

/-- Token counter assigning zero to every text (a legitimate instantiation of
the abstract token counter). -/
def count0 : List Char → Nat := fun _ => 0

/-- Generator answering every prompt with the same valid JSON object. -/
def genTitleX : List Char → List Char := fun _ => "\x7b\"title\": \"X\"\x7d".toList

/-- Generator answering every prompt with text whose brace-delimited span is
not valid JSON. -/
def genBadSpan : List Char → List Char := fun _ => "xx\x7boops\x7dyy".toList

/-- Generator answering every prompt with a valid JSON list (not an object). -/
def genList12 : List Char → List Char := fun _ => "[1, 2]".toList

/-- Generator whose response to the first extraction prompt of the two-chunk
run over batches `["aa", "bb"]` with template `"T"` and budget 3 contains no
JSON at all, while every other response is a valid JSON object. -/
def genMixed : List Char → List Char := fun p =>
  if p = "T\n\nText:\naa".toList then "no json at all".toList
  else "\x7b\"title\": \"X\"\x7d".toList

/-! ### Helper lemmas -/

theorem length_dropWhile_le (p : Char → Bool) (l : List Char) :
    (l.dropWhile p).length ≤ l.length := by
  induction l with
  | nil => simp [List.dropWhile]
  | cons c t ih =>
    rw [List.dropWhile_cons]
    split
    · exact Nat.le_succ_of_le ih
    · simp

theorem pyStrip_length_le (s : List Char) : (pyStrip s).length ≤ s.length := by
  unfold pyStrip
  calc ((s.dropWhile pyIsSpace).reverse.dropWhile pyIsSpace).reverse.length
      = ((s.dropWhile pyIsSpace).reverse.dropWhile pyIsSpace).length := by
        rw [List.length_reverse]
    _ ≤ (s.dropWhile pyIsSpace).reverse.length := length_dropWhile_le _ _
    _ = (s.dropWhile pyIsSpace).length := by rw [List.length_reverse]
    _ ≤ s.length := length_dropWhile_le _ _

theorem pyStrip_cons_space (s : List Char) : pyStrip (' ' :: s) = pyStrip s := by
  unfold pyStrip
  rw [List.dropWhile_cons]
  simp [pyIsSpace]

instance : Inhabited Json := ⟨Json.null⟩

theorem dictSet_keys_mem (d : List (List Char × Json)) (k : List Char) (v : Json)
    (k' : List Char) :
    k' ∈ (dictSet d k v).map Prod.fst ↔ k' ∈ d.map Prod.fst ∨ k' = k := by
  induction d with
  | nil => simp [dictSet]
  | cons kv rest ih =>
    obtain ⟨k1, v1⟩ := kv
    by_cases h : k1 = k
    · subst h
      simp [dictSet]
      tauto
    · simp [dictSet, h, ih]
      tauto

theorem dictGet_dictSet_self (d : List (List Char × Json)) (k : List Char) (v : Json) :
    dictGet (dictSet d k v) k = some v := by
  induction d with
  | nil => simp [dictSet, dictGet]
  | cons kv rest ih =>
    obtain ⟨k1, v1⟩ := kv
    by_cases h : k1 = k
    · subst h
      simp [dictSet, dictGet]
    · simp [dictSet, dictGet, h, ih]

theorem dictGet_dictSet_ne (d : List (List Char × Json)) (k : List Char) (v : Json)
    (k' : List Char) (hne : k' ≠ k) :
    dictGet (dictSet d k v) k' = dictGet d k' := by
  induction d with
  | nil => simp [dictSet, dictGet, Ne.symm hne]
  | cons kv rest ih =>
    obtain ⟨k1, v1⟩ := kv
    by_cases h : k1 = k
    · subst h
      simp [dictSet, dictGet, Ne.symm hne]
    · simp [dictSet, dictGet, h, ih]

theorem sjoin_cons_cons (b c : List Char) (t : List (List Char)) :
    sjoin (b :: c :: t) = b ++ ' ' :: sjoin (c :: t) := rfl

theorem sjoin_append_singleton (seg : List (List Char)) (b : List Char) (h : seg ≠ []) :
    sjoin (seg ++ [b]) = sjoin seg ++ ' ' :: b := by
  induction seg with
  | nil => exact absurd rfl h
  | cons x t ih =>
    cases t with
    | nil => simp [sjoin_cons_cons, sjoin]
    | cons y u =>
      have ih' : sjoin ((y :: u) ++ [b]) = sjoin (y :: u) ++ ' ' :: b := ih (by simp)
      show sjoin (x :: ((y :: u) ++ [b])) = (x ++ ' ' :: sjoin (y :: u)) ++ ' ' :: b
      rw [show sjoin (x :: ((y :: u) ++ [b])) = x ++ ' ' :: sjoin ((y :: u) ++ [b]) from rfl,
        ih']
      simp

theorem extractChunks_length (limit : Nat) (count : List Char → Nat)
    (gen : List Char → List Char) (template : List Char) :
    ∀ (chunks : List (List Char)) (i : Nat),
      (extractChunks limit count gen template chunks i).length = chunks.length
  | [], _ => rfl
  | ch :: rest, i => by
    simp [extractChunks, extractChunks_length limit count gen template rest (i + 1)]

theorem extractChunks_getElem? (limit : Nat) (count : List Char → Nat)
    (gen : List Char → List Char) (template : List Char) :
    ∀ (chunks : List (List Char)) (i j : Nat),
      (extractChunks limit count gen template chunks i)[j]? =
        (chunks[j]?).map (fun ch =>
          ({ prompt := chunkPrompt template limit (i + j) ch,
             response := gen (chunkPrompt template limit (i + j) ch),
             inTok := count (chunkPrompt template limit (i + j) ch),
             outTok := count (gen (chunkPrompt template limit (i + j) ch)) } : CallRec))
  | [], i, j => by simp [extractChunks]
  | ch :: rest, i, 0 => by simp [extractChunks]
  | ch :: rest, i, j + 1 => by
    simp only [extractChunks, List.getElem?_cons_succ]
    rw [extractChunks_getElem? limit count gen template rest (i + 1) j]
    have harith : i + 1 + j = i + (j + 1) := by omega
    rw [harith]

theorem parseChunks_cons_ok (r : List Char) (rs : List (List Char)) (l : List Json)
    (h : parseChunks (r :: rs) = .ok l) :
    ∃ v vs, l = v :: vs ∧ parseChunkResponse r = .ok v ∧ parseChunks rs = .ok vs := by
  cases hp : parseChunkResponse r with
  | error e => simp [parseChunks, hp] at h
  | ok v =>
    cases hps : parseChunks rs with
    | error e => simp [parseChunks, hp, hps] at h
    | ok vs =>
      simp [parseChunks, hp, hps] at h
      exact ⟨v, vs, h.symm, rfl, rfl⟩

theorem reduceLoop_calls_extend (count : List Char → Nat) (gen : List Char → List Char)
    (filesRef : List (List Char)) (batchJsons : List Json) (keys : List (List Char)) :
    ∀ (metadata : List (List Char × Json)) (ti tOut : Nat) (trace : AggTrace),
      ∃ extra,
        (reduceLoop count gen filesRef batchJsons keys metadata ti tOut trace).2.calls =
          trace.calls ++ extra := by
  induction keys with
  | nil =>
    intro metadata ti tOut trace
    exact ⟨[], by simp [reduceLoop]⟩
  | cons key keys ih =>
    intro metadata ti tOut trace
    simp only [reduceLoop]
    cases hv : getValues key batchJsons with
    | error e => exact ⟨[], by simp⟩
    | ok values =>
      obtain ⟨ex, hex⟩ := ih
        (dictSet metadata key (parseReduceResponse (gen (reducePrompt key values)) key))
        (ti + count (reducePrompt key values)) (tOut + count (gen (reducePrompt key values)))
        { calls := trace.calls ++ [(reducePrompt key values, gen (reducePrompt key values))],
          log := trace.log ++ [mkLogEntry (reducePrompt key values)
            (gen (reducePrompt key values)) filesRef (count (reducePrompt key values))
            (count (gen (reducePrompt key values)))] }
      refine ⟨(reducePrompt key values, gen (reducePrompt key values)) :: ex, ?_⟩
      rw [hex]
      simp

theorem reduceLoop_ok_keys (count : List Char → Nat) (gen : List Char → List Char)
    (filesRef : List (List Char)) (batchJsons : List Json) (keys : List (List Char)) :
    ∀ (metadata : List (List Char × Json)) (ti tOut : Nat) (trace : AggTrace)
      (md : List (List Char × Json)) (ti' tOut' : Nat) (tr : AggTrace),
      reduceLoop count gen filesRef batchJsons keys metadata ti tOut trace =
        (.ok (md, ti', tOut'), tr) →
      ∀ k, k ∈ md.map Prod.fst ↔ k ∈ metadata.map Prod.fst ∨ k ∈ keys := by
  induction keys with
  | nil =>
    intro metadata ti tOut trace md ti' tOut' tr h k
    simp [reduceLoop] at h
    obtain ⟨⟨hmd, -, -⟩, -⟩ := h
    subst hmd
    simp
  | cons key keys ih =>
    intro metadata ti tOut trace md ti' tOut' tr h k
    simp only [reduceLoop] at h
    cases hv : getValues key batchJsons with
    | error e => rw [hv] at h; simp at h
    | ok values =>
      rw [hv] at h
      have := ih _ _ _ _ _ _ _ _ h k
      rw [this, dictSet_keys_mem]
      simp [List.mem_cons]
      tauto

theorem finishReduce_trace
    (p : (Except PyErr (List (List Char × Json) × Nat × Nat)) × AggTrace) :
    (finishReduce p).trace = p.2 := by
  rcases p with ⟨res, tr⟩
  cases res with
  | error e => rfl
  | ok trip =>
    obtain ⟨md, ti', tOut'⟩ := trip
    rfl

theorem finishReduce_ok
    (p : (Except PyErr (List (List Char × Json) × Nat × Nat)) × AggTrace)
    (r : List (List Char × Json) × Nat × Nat)
    (h : (finishReduce p).result = .ok r) :
    ∃ md ti' tOut' tr, p = (.ok (md, ti', tOut'), tr) ∧
      r = (dictSet (dictSet md totInKey (Json.num (ti' : Int))) totOutKey
        (Json.num (tOut' : Int)), ti', tOut') := by
  rcases p with ⟨res, tr⟩
  cases res with
  | error e => simp [finishReduce] at h
  | ok trip =>
    obtain ⟨md, ti', tOut'⟩ := trip
    simp only [finishReduce, Except.ok.injEq] at h
    exact ⟨md, ti', tOut', tr, rfl, h.symm⟩

theorem multiFinish_calls (count : List Char → Nat) (gen : List Char → List Char)
    (filesRef : List (List Char)) (ti tOut : Nat) (trace0 : AggTrace) (bjs : List Json) :
    ∃ extra, (multiFinish count gen filesRef ti tOut trace0 bjs).trace.calls =
      trace0.calls ++ extra := by
  cases bjs with
  | nil => exact ⟨[], by simp [multiFinish]⟩
  | cons bj0 rest =>
    cases bj0 with
    | obj d0 =>
      obtain ⟨ex, hex⟩ := reduceLoop_calls_extend count gen filesRef (Json.obj d0 :: rest)
        (d0.map Prod.fst) [] ti tOut trace0
      refine ⟨ex, ?_⟩
      simp only [multiFinish, finishReduce_trace]
      exact hex
    | str s => exact ⟨[], by simp [multiFinish]⟩
    | num n => exact ⟨[], by simp [multiFinish]⟩
    | bool b => exact ⟨[], by simp [multiFinish]⟩
    | null => exact ⟨[], by simp [multiFinish]⟩
    | arr vs => exact ⟨[], by simp [multiFinish]⟩

theorem multiChunkRun_calls (limit : Nat) (count : List Char → Nat)
    (gen : List Char → List Char) (template : List Char) (filesRef : List (List Char))
    (joined : List (List Char)) :
    ∃ extra,
      (multiChunkRun limit count gen template filesRef joined).trace.calls =
        (extractChunks limit count gen template joined 0).map
          (fun c => (c.prompt, c.response)) ++ extra := by
  simp only [multiChunkRun]
  cases hp : parseChunks ((extractChunks limit count gen template joined 0).map
      CallRec.response) with
  | error e => exact ⟨[], by simp [hp]⟩
  | ok bjs =>
    obtain ⟨ex, hex⟩ := multiFinish_calls count gen filesRef
      ((extractChunks limit count gen template joined 0).map CallRec.inTok).sum
      ((extractChunks limit count gen template joined 0).map CallRec.outTok).sum
      { calls := (extractChunks limit count gen template joined 0).map
          (fun c => (c.prompt, c.response)), log := [] } bjs
    exact ⟨ex, by simp only [hp]; exact hex⟩

theorem joinBatchesGo_length_bound (limit : Nat) (allB : List (List Char)) :
    ∀ (bs : List (List Char)) (current : List Char),
      (∀ b ∈ bs, b ∈ allB) →
      (current.length ≤ limit + 1 ∨ ∃ b ∈ allB, current = b ∧ limit < b.length) →
      ∀ c ∈ joinBatchesGo limit bs current,
        c.length ≤ limit + 1 ∨ ∃ b ∈ allB, c = pyStrip b ∧ limit < b.length := by
  intro bs
  induction bs with
  | nil =>
    intro current hsub hinv c hc
    rw [joinBatchesGo] at hc
    split at hc
    · simp at hc
    · simp at hc
      subst hc
      rcases hinv with h | ⟨b, hb, hcb, hlen⟩
      · exact Or.inl (le_trans (pyStrip_length_le current) h)
      · exact Or.inr ⟨b, hb, by rw [hcb], hlen⟩
  | cons b bs ih =>
    intro current hsub hinv c hc
    rw [joinBatchesGo] at hc
    split at hc
    next hfit =>
      refine ih (current ++ ' ' :: b) (fun x hx => hsub x (by simp [hx])) ?_ c hc
      left
      simp only [List.length_append, List.length_cons]
      omega
    next hfit =>
      rcases List.mem_cons.mp hc with rfl | hc'
      · rcases hinv with h | ⟨x, hx, hcx, hlen⟩
        · exact Or.inl (le_trans (pyStrip_length_le current) h)
        · exact Or.inr ⟨x, hx, by rw [hcx], hlen⟩
      · refine ih b (fun x hx => hsub x (by simp [hx])) ?_ c hc'
        by_cases hb : b.length ≤ limit + 1
        · exact Or.inl hb
        · exact Or.inr ⟨b, hsub b (by simp), rfl, by omega⟩

theorem segmentsGo_flatten (limit : Nat) :
    ∀ (bs : List (List Char)) (current : List Char) (seg : List (List Char)),
      (segmentsGo limit bs current seg).flatten = seg ++ bs := by
  intro bs
  induction bs with
  | nil => intro current seg; simp [segmentsGo]
  | cons b bs ih =>
    intro current seg
    rw [segmentsGo]
    split
    · rw [ih]; simp
    · rw [List.flatten_cons, ih]; simp

theorem inv_strip {current : List Char} {seg : List (List Char)}
    (h : current = sjoin seg ∨ (seg ≠ [] ∧ current = ' ' :: sjoin seg)) :
    pyStrip current = pyStrip (sjoin seg) := by
  rcases h with rfl | ⟨-, rfl⟩
  · rfl
  · exact pyStrip_cons_space _

theorem inv_step {current : List Char} {seg : List (List Char)} (b : List Char)
    (h : current = sjoin seg ∨ (seg ≠ [] ∧ current = ' ' :: sjoin seg)) :
    current ++ ' ' :: b = sjoin (seg ++ [b]) ∨
      (seg ++ [b] ≠ [] ∧ current ++ ' ' :: b = ' ' :: sjoin (seg ++ [b])) := by
  rcases h with rfl | ⟨hne, rfl⟩
  · cases seg with
    | nil => right; exact ⟨by simp, by simp [sjoin]⟩
    | cons x t => left; rw [sjoin_append_singleton _ b (by simp)]
  · right
    refine ⟨by simp, ?_⟩
    rw [sjoin_append_singleton _ b hne]
    simp

theorem joinBatchesGo_eq_segments (limit : Nat) :
    ∀ (bs : List (List Char)) (current : List Char) (seg : List (List Char)),
      (current = sjoin seg ∨ (seg ≠ [] ∧ current = ' ' :: sjoin seg)) →
      joinBatchesGo limit bs current =
          (segmentsGo limit bs current seg).map (fun s => pyStrip (sjoin s)) ∨
        ∃ pre s, segmentsGo limit bs current seg = pre ++ [s] ∧ sjoin s = [] ∧
          joinBatchesGo limit bs current = pre.map (fun s => pyStrip (sjoin s)) := by
  intro bs
  induction bs with
  | nil =>
    intro current seg hinv
    rw [joinBatchesGo, segmentsGo]
    by_cases hemp : current.isEmpty
    · right
      refine ⟨[], seg, by simp, ?_, by simp [hemp]⟩
      rcases hinv with h | ⟨-, h⟩
      · rw [← h]; exact List.isEmpty_iff.mp hemp
      · rw [h] at hemp; simp at hemp
    · left
      simp [hemp, inv_strip hinv]
  | cons b bs ih =>
    intro current seg hinv
    rw [joinBatchesGo, segmentsGo]
    by_cases hfit : current.length + b.length ≤ limit
    · simp only [if_pos hfit]
      exact ih _ _ (inv_step b hinv)
    · simp only [if_neg hfit]
      rcases ih b [b] (Or.inl rfl) with htail | ⟨pre, s, hs, hsj, htail⟩
      · left
        rw [List.map_cons, htail, inv_strip hinv]
      · right
        refine ⟨seg :: pre, s, by rw [hs]; rfl, hsj, ?_⟩
        rw [List.map_cons, htail, inv_strip hinv]

theorem segmentsGo_oversized (limit : Nat) :
    ∀ (bs : List (List Char)) (current : List Char) (seg : List (List Char)),
      (current = sjoin seg ∨ (seg ≠ [] ∧ current = ' ' :: sjoin seg)) →
      (∀ b ∈ seg, limit < b.length → seg = [b]) →
      ∀ s ∈ segmentsGo limit bs current seg, ∀ b ∈ s, limit < b.length → s = [b] := by
  intro bs
  induction bs with
  | nil =>
    intro current seg hinv hok s hs
    simp [segmentsGo] at hs
    subst hs
    exact hok
  | cons b bs ih =>
    intro current seg hinv hok s hs
    rw [segmentsGo] at hs
    split at hs
    next hfit =>
      refine ih _ _ (inv_step b hinv) ?_ s hs
      intro x hx hover
      exfalso
      rcases List.mem_append.mp hx with hxseg | hxb
      · have hseg := hok x hxseg hover
        subst hseg
        have hcur : x.length ≤ current.length := by
          rcases hinv with h | ⟨-, h⟩
          · rw [h]; exact Nat.le_refl _
          · rw [h]; exact Nat.le_succ _
        omega
      · simp at hxb
        subst hxb
        omega
    next hfit =>
      rcases List.mem_cons.mp hs with rfl | hs'
      · exact hok
      · refine ih b [b] (Or.inl rfl) ?_ s hs'
        intro x hx hover
        simp at hx
        subst hx
        rfl

/-! ### Claim theorems -/

/-- C5: for the input batches `["A"*500, "B"*500, "C"*500]` with budget 900
the packing step yields exactly 3 chunks, each equal to a single original
batch. -/
theorem joinBatches_scenario_900 :
    joinBatches 900
        [List.replicate 500 'A', List.replicate 500 'B', List.replicate 500 'C'] =
      [List.replicate 500 'A', List.replicate 500 'B', List.replicate 500 'C'] := by
  decide

/-- C9: the response parser first attempts a direct JSON parse of the whole
response (which fails on the noisy example), then parses the widest
brace-delimited span, so the noisy example yields the embedded object and a
response with no JSON yields parse failure. -/
theorem parseResponse_examples :
    parseResponse "noise \x7b\"a\": 1, \"b\": [2,3]\x7d trailing text".toList =
        some (Json.obj [("a".toList, Json.num 1),
          ("b".toList, Json.arr [Json.num 2, Json.num 3])]) ∧
    jsonLoads "noise \x7b\"a\": 1, \"b\": [2,3]\x7d trailing text".toList = none ∧
    braceSpan "noise \x7b\"a\": 1, \"b\": [2,3]\x7d trailing text".toList =
        some "\x7b\"a\": 1, \"b\": [2,3]\x7d".toList ∧
    parseResponse "not json at all".toList = none :=
  ⟨rfl, rfl, rfl, rfl⟩

/-- C1 (code bug): in a multi-chunk run, a chunk response that contains an
opening and a closing brace but whose brace-delimited span is not valid JSON
makes `_process_batches_to_metadata` raise `json.JSONDecodeError` — the
`json.loads(match.group(0))` at line 210 is not wrapped in a `try`, unlike
its single-chunk (line 168) and reduction (line 237) counterparts — instead
of recording an empty PartialMetadata and continuing. -/
theorem multiChunk_parse_failure_raises :
    (processBatchesToMetadata 3 count0 genBadSpan ["aa".toList, "bb".toList]
        "T".toList []).result = .error .jsonDecodeError ∧
    joinBatches 3 ["aa".toList, "bb".toList] = ["aa".toList, "bb".toList] ∧
    jsonLoads "xx\x7boops\x7dyy".toList = none ∧
    braceSpan "xx\x7boops\x7dyy".toList = some "\x7boops\x7d".toList ∧
    jsonLoads "\x7boops\x7d".toList = none :=
  ⟨rfl, rfl, rfl, rfl, rfl⟩

/-- C8 (code bug): in a two-chunk run three model calls are made (two chunk
extractions and one field reduction) but only one conversation-log entry is
appended, namely the reduction call's — the extraction loop of the
multi-chunk branch (lines 184-201) never calls `_log_interaction`, it only
fills the never-read lists `batch_prompts`, `batch_input_tokens`,
`batch_output_tokens`. -/
theorem multiChunk_extraction_calls_not_logged :
    (processBatchesToMetadata 3 count0 genTitleX ["aa".toList, "bb".toList]
        "T".toList []).trace.calls.length = 3 ∧
    (processBatchesToMetadata 3 count0 genTitleX ["aa".toList, "bb".toList]
        "T".toList []).trace.log.length = 1 ∧
    (processBatchesToMetadata 3 count0 genTitleX ["aa".toList, "bb".toList]
        "T".toList []).trace.log.map LogEntry.question =
      [reducePrompt "title".toList [Json.str "X".toList, Json.str "X".toList]] :=
  ⟨rfl, rfl, rfl⟩

/-- C2 (counterexample): with budget 3 and batches `["aaaa", "b", "bb"]` the
packing step produces the chunk `"b bb"` of length 4 > 3 which is not (the
stripped form of) a single oversized batch, so the claimed bound
`length ≤ budget` fails: the fit check does not count the joining space. -/
theorem joinBatches_bound_counterexample :
    ¬ (∀ c ∈ joinBatches 3 ["aaaa".toList, "b".toList, "bb".toList],
        (∃ b ∈ ["aaaa".toList, "b".toList, "bb".toList],
          c = pyStrip b ∧ 3 < b.length) ∨ c.length ≤ 3) := by
  decide

/-- C2 (amended): every chunk produced by the packing step either has length
at most budget + 1 — the fit check `len(current) + len(batch) <= budget`
omits the single joining space, so a chunk whose accumulator was restarted by
a non-fitting batch can exceed the budget by exactly one character — or is
the whitespace-stripped form of a single input batch longer than the
budget. -/
theorem joinBatches_length_bound (limit : Nat) (batches : List (List Char))
    (c : List Char) (hc : c ∈ joinBatches limit batches) :
    c.length ≤ limit + 1 ∨ ∃ b ∈ batches, c = pyStrip b ∧ limit < b.length :=
  joinBatchesGo_length_bound limit batches batches [] (fun _ h => h)
    (Or.inl (by simp)) c hc

/-- Witness for `joinBatches_length_bound` at a concrete input. -/
theorem joinBatches_length_bound_witness :
    ("b bb".toList ∈ joinBatches 3 ["aaaa".toList, "b".toList, "bb".toList]) ∧
    (("b bb".toList).length ≤ 3 + 1 ∨
      ∃ b ∈ ["aaaa".toList, "b".toList, "bb".toList],
        "b bb".toList = pyStrip b ∧ 3 < b.length) :=
  ⟨by decide, joinBatches_length_bound 3 _ _ (by decide)⟩

/-- C6 (counterexample): for the single batch `"aaa"` (longer than the budget
2) the packing step emits an empty chunk before the oversized batch — the
`else` branch closes the still-empty accumulator as `"".strip()` — and the
empty chunk is not the space-joined concatenation of one or more consecutive
input batches (the only non-empty consecutive segment of the one-batch input
is the whole input, whose join `"aaa"` is non-empty), so the claimed
partition property fails at this input. -/
theorem joinBatches_empty_chunk_counterexample :
    joinBatches 2 [['a', 'a', 'a']] = [[], ['a', 'a', 'a']] ∧
    ¬ (∀ c ∈ joinBatches 2 [['a', 'a', 'a']],
        ∃ i n : Nat, (([['a', 'a', 'a']].drop i).take n) ≠ [] ∧
          c = sjoin (([['a', 'a', 'a']].drop i).take n)) := by
  refine ⟨by decide, ?_⟩
  intro h
  obtain ⟨i, n, hne, hc⟩ := h [] (by decide)
  cases i with
  | zero =>
    cases n with
    | zero => exact hne rfl
    | succ n =>
      rw [List.drop_zero, List.take_succ_cons, List.take_nil] at hc
      exact absurd hc (by decide)
  | succ i =>
    rw [List.drop_succ_cons, List.drop_nil, List.take_nil] at hne
    exact hne rfl

/-- C6 (amended): the chunks produced by the packing step arise from a
consecutive segmentation of the input batch sequence; each chunk is the
whitespace-stripped space-joined concatenation of its segment, a batch longer
than the budget always forms a singleton segment (its own chunk, with no
error raised), and the segment is empty — producing an empty chunk — exactly
when a batch failed the fit check while the accumulator was empty (in
particular when the first batch is oversized); a final empty accumulator
contributes no chunk. -/
theorem joinBatches_partition (limit : Nat) (batches : List (List Char)) :
    ∃ segs : List (List (List Char)),
      segs.flatten = batches ∧
      (∀ s ∈ segs, ∀ b ∈ s, limit < b.length → s = [b]) ∧
      (joinBatches limit batches = segs.map (fun s => pyStrip (sjoin s)) ∨
        ∃ pre s, segs = pre ++ [s] ∧ sjoin s = [] ∧
          joinBatches limit batches = pre.map (fun s => pyStrip (sjoin s))) := by
  refine ⟨segmentsGo limit batches [] [], ?_, ?_, ?_⟩
  · rw [segmentsGo_flatten]; simp
  · exact segmentsGo_oversized limit batches [] [] (Or.inl rfl) (by simp)
  · exact joinBatchesGo_eq_segments limit batches [] [] (Or.inl rfl)

/-- C3 (counterexample): with the mixed generator the first chunk's response
parses to the empty object while the second chunk's response parses
successfully to an object with key `"title"`, yet the returned FinalMetadata
contains only the two token fields: the code takes the key set from
`batch_jsons[0]` (the first chunk), not from the first successfully parsed
chunk. -/
theorem multiChunk_keys_counterexample :
    (processBatchesToMetadata 3 count0 genMixed ["aa".toList, "bb".toList]
        "T".toList []).result =
      .ok ([(totInKey, Json.num 0), (totOutKey, Json.num 0)], 0, 0) ∧
    parseChunkResponse (genMixed (chunkPrompt "T".toList 3 0 "aa".toList)) =
      .ok (Json.obj []) ∧
    parseChunkResponse (genMixed (chunkPrompt "T".toList 3 1 "bb".toList)) =
      .ok (Json.obj [("title".toList, Json.str "X".toList)]) ∧
    "title".toList ∉
      ([(totInKey, Json.num 0), (totOutKey, Json.num 0)].map Prod.fst) :=
  ⟨by rfl, by rfl, by rfl, by decide⟩

/-- C7 (counterexample): in a run with exactly 2 chunks the first extraction
prompt rewrites the template phrase naming only the chunk index 0; the
numeral 2 — the total chunk count — occurs nowhere in the prompt, so the
rewriting does not name the total chunk count. -/
theorem chunkPrompt_no_total_count :
    (joinBatches 3 ["aa".toList, "bb".toList]).length = 2 ∧
    (processBatchesToMetadata 3 count0 genTitleX ["aa".toList, "bb".toList]
        "Analyze the following document".toList []).trace.calls[0]? =
      some (("Analyze the following text, which is the batch 0 of a document"
          ++ "\n\nText:\naa").toList,
        genTitleX ("Analyze the following text, which is the batch 0 of a document"
          ++ "\n\nText:\naa").toList) ∧
    '2' ∉ ("Analyze the following text, which is the batch 0 of a document"
          ++ "\n\nText:\naa").toList :=
  ⟨by rfl, by rfl, by decide⟩

/-- C7 (amended): in every multi-chunk run the i-th chunk-extraction prompt
is the template with every occurrence of the complete-document phrase
"following document" replaced by "following text, which is the batch i of a
document" — naming the zero-based chunk index but not the total chunk
count — followed by the marker and the chunk text truncated to the budget;
the extraction calls are the first entries, in chunk order, of the run's
generator-call list. -/
theorem multiChunk_extraction_prompts (limit : Nat) (count : List Char → Nat)
    (gen : List Char → List Char) (batches : List (List Char))
    (template : List Char) (filesRef : List (List Char))
    (h2 : 2 ≤ (joinBatches limit batches).length) (i : Nat) (ch : List Char)
    (hch : (joinBatches limit batches)[i]? = some ch) :
    (processBatchesToMetadata limit count gen batches template
        filesRef).trace.calls[i]? =
      some (chunkPrompt template limit i ch, gen (chunkPrompt template limit i ch)) := by
  cases hJ : joinBatches limit batches with
  | nil => rw [hJ] at h2; simp at h2
  | cons c0 t =>
    cases t with
    | nil => rw [hJ] at h2; simp at h2
    | cons c1 rest =>
      rw [hJ] at hch
      have hlt : i < (c0 :: c1 :: rest).length := by
        rcases List.getElem?_eq_some_iff.mp hch with ⟨h, -⟩
        exact h
      have hrun : processBatchesToMetadata limit count gen batches template filesRef =
          multiChunkRun limit count gen template filesRef (c0 :: c1 :: rest) := by
        rw [processBatchesToMetadata, hJ]
      rw [hrun]
      obtain ⟨extra, hcalls⟩ :=
        multiChunkRun_calls limit count gen template filesRef (c0 :: c1 :: rest)
      rw [hcalls]
      have hlen : i < ((extractChunks limit count gen template (c0 :: c1 :: rest) 0).map
          (fun c => (c.prompt, c.response))).length := by
        rw [List.length_map, extractChunks_length]
        exact hlt
      rw [List.getElem?_append_left hlen, List.getElem?_map, extractChunks_getElem?, hch]
      simp

/-- Witness for `multiChunk_extraction_prompts` at a concrete two-chunk run. -/
theorem multiChunk_extraction_prompts_witness :
    2 ≤ (joinBatches 3 ["aa".toList, "bb".toList]).length ∧
    (joinBatches 3 ["aa".toList, "bb".toList])[1]? = some "bb".toList ∧
    (processBatchesToMetadata 3 count0 genTitleX ["aa".toList, "bb".toList]
        "T".toList []).trace.calls[1]? =
      some (chunkPrompt "T".toList 3 1 "bb".toList,
        genTitleX (chunkPrompt "T".toList 3 1 "bb".toList)) :=
  ⟨by decide, by decide, multiChunk_extraction_prompts 3 count0 genTitleX
    ["aa".toList, "bb".toList] "T".toList [] (by decide) 1 "bb".toList (by decide)⟩

/-- C10: when the input packs into exactly one chunk and the generator's
response is valid JSON whose top-level value is not an object (a list, a
number, a string, a boolean or null), `_process_batches_to_metadata` raises
`TypeError` instead of returning: the direct parse succeeds with the non-dict
value and the item assignment `metadata["total_input_tokens"] = ...`
(line 252) fails on it, so the promise that the two token fields are always
present does not hold on such input. -/
theorem singleChunk_nonobject_raises (limit : Nat) (count : List Char → Nat)
    (gen : List Char → List Char) (batches : List (List Char))
    (template : List Char) (filesRef : List (List Char)) (text : List Char)
    (hj : joinBatches limit batches = [text]) (v : Json)
    (hv : jsonLoads (gen (template ++ docMarker ++ text.take limit)) = some v)
    (hnv : ∀ d, v ≠ Json.obj d) :
    (processBatchesToMetadata limit count gen batches template filesRef).result =
      .error .typeError := by
  have hrun : processBatchesToMetadata limit count gen batches template filesRef =
      singleChunkRun limit count gen template filesRef text := by
    rw [processBatchesToMetadata, hj]
  rw [hrun]
  have hpr : parseResponse (gen (template ++ docMarker ++ text.take limit)) = some v := by
    rw [parseResponse, hv]
  simp only [singleChunkRun, hpr, Option.getD_some]

/-- Witness for `singleChunk_nonobject_raises` at a concrete input. -/
theorem singleChunk_nonobject_raises_witness :
    joinBatches 10 ["aa".toList] = ["aa".toList] ∧
    jsonLoads (genList12 ("T".toList ++ docMarker ++ ("aa".toList).take 10)) =
      some (Json.arr [Json.num 1, Json.num 2]) ∧
    (processBatchesToMetadata 10 count0 genList12 ["aa".toList] "T".toList []).result =
      .error .typeError :=
  ⟨by decide, by rfl, singleChunk_nonobject_raises 10 count0 genList12 ["aa".toList]
    "T".toList [] "aa".toList (by decide) (Json.arr [Json.num 1, Json.num 2]) (by rfl)
    (fun d h => Json.noConfusion h)⟩

/-- C4: when the input packs into exactly one chunk and the chunk's response
parses to an object (or fails to parse, in which case `d = []`), the run
returns: the returned FinalMetadata holds exactly the parsed fields plus the
two token-total fields, exactly one generator call is made (so no
field-reduction call is issued), and one conversation-log entry is
appended. -/
theorem singleChunk_passthrough (limit : Nat) (count : List Char → Nat)
    (gen : List Char → List Char) (batches : List (List Char))
    (template : List Char) (filesRef : List (List Char)) (text : List Char)
    (d : List (List Char × Json))
    (hj : joinBatches limit batches = [text])
    (hd : (parseResponse (gen (template ++ docMarker ++ text.take limit))).getD
        (Json.obj []) = Json.obj d) :
    ∃ fm : List (List Char × Json),
      (processBatchesToMetadata limit count gen batches template filesRef).result =
        .ok (fm, count (template ++ docMarker ++ text.take limit),
          count (gen (template ++ docMarker ++ text.take limit))) ∧
      (processBatchesToMetadata limit count gen batches template filesRef).trace.calls =
        [(template ++ docMarker ++ text.take limit,
          gen (template ++ docMarker ++ text.take limit))] ∧
      (processBatchesToMetadata limit count gen batches template
          filesRef).trace.log.length = 1 ∧
      dictGet fm totInKey =
        some (Json.num (count (template ++ docMarker ++ text.take limit) : Int)) ∧
      dictGet fm totOutKey =
        some (Json.num (count (gen (template ++ docMarker ++ text.take limit)) : Int)) ∧
      (∀ k, k ≠ totInKey → k ≠ totOutKey → dictGet fm k = dictGet d k) ∧
      (∀ k, k ∈ fm.map Prod.fst ↔ k ∈ d.map Prod.fst ∨ k = totInKey ∨ k = totOutKey) := by
  have hrun : processBatchesToMetadata limit count gen batches template filesRef =
      singleChunkRun limit count gen template filesRef text := by
    rw [processBatchesToMetadata, hj]
  rw [hrun]
  refine ⟨dictSet (dictSet d totInKey
      (Json.num (count (template ++ docMarker ++ text.take limit) : Int))) totOutKey
      (Json.num (count (gen (template ++ docMarker ++ text.take limit)) : Int)),
    ?_, ?_, ?_, ?_, ?_, ?_, ?_⟩
  · simp only [singleChunkRun, hd]
  · simp only [singleChunkRun, hd]
  · simp only [singleChunkRun, hd]
    rfl
  · rw [dictGet_dictSet_ne _ _ _ _ (by decide), dictGet_dictSet_self]
  · rw [dictGet_dictSet_self]
  · intro k hk1 hk2
    rw [dictGet_dictSet_ne _ _ _ _ hk2, dictGet_dictSet_ne _ _ _ _ hk1]
  · intro k
    rw [dictSet_keys_mem, dictSet_keys_mem]
    tauto

/-- Witness for `singleChunk_passthrough` at a concrete single-chunk run. -/
theorem singleChunk_passthrough_witness :
    joinBatches 10 ["aa".toList] = ["aa".toList] ∧
    (parseResponse (genTitleX ("T".toList ++ docMarker ++ ("aa".toList).take 10))).getD
        (Json.obj []) = Json.obj [("title".toList, Json.str "X".toList)] ∧
    ∃ fm : List (List Char × Json),
      (processBatchesToMetadata 10 count0 genTitleX ["aa".toList] "T".toList
          []).result =
        .ok (fm, count0 ("T".toList ++ docMarker ++ ("aa".toList).take 10),
          count0 (genTitleX ("T".toList ++ docMarker ++ ("aa".toList).take 10))) ∧
      (processBatchesToMetadata 10 count0 genTitleX ["aa".toList] "T".toList
          []).trace.calls =
        [("T".toList ++ docMarker ++ ("aa".toList).take 10,
          genTitleX ("T".toList ++ docMarker ++ ("aa".toList).take 10))] ∧
      (processBatchesToMetadata 10 count0 genTitleX ["aa".toList] "T".toList
          []).trace.log.length = 1 ∧
      dictGet fm totInKey =
        some (Json.num (count0 ("T".toList ++ docMarker ++ ("aa".toList).take 10) : Int)) ∧
      dictGet fm totOutKey =
        some (Json.num
          (count0 (genTitleX ("T".toList ++ docMarker ++ ("aa".toList).take 10)) : Int)) ∧
      (∀ k, k ≠ totInKey → k ≠ totOutKey →
        dictGet fm k = dictGet [("title".toList, Json.str "X".toList)] k) ∧
      (∀ k, k ∈ fm.map Prod.fst ↔
        k ∈ [("title".toList, Json.str "X".toList)].map Prod.fst ∨
          k = totInKey ∨ k = totOutKey) :=
  ⟨by decide, by rfl, singleChunk_passthrough 10 count0 genTitleX ["aa".toList]
    "T".toList [] "aa".toList [("title".toList, Json.str "X".toList)] (by decide) (by rfl)⟩

/-- C3 (amended): in every multi-chunk run that returns a result, the set of
domain field names of the returned FinalMetadata equals the key set of the
*first* chunk's parsed PartialMetadata — which is empty when the first
chunk's parse failed — regardless of whether later chunks parsed
successfully; in particular FinalMetadata contains just the two token fields
exactly when the first chunk's parsed object has no keys. -/
theorem multiChunk_keys_from_first_chunk (limit : Nat) (count : List Char → Nat)
    (gen : List Char → List Char) (batches : List (List Char))
    (template : List Char) (filesRef : List (List Char))
    (c0 c1 : List Char) (rest : List (List Char))
    (hj : joinBatches limit batches = c0 :: c1 :: rest)
    (r : List (List Char × Json) × Nat × Nat)
    (hok : (processBatchesToMetadata limit count gen batches template filesRef).result =
      .ok r) :
    ∃ d0, parseChunkResponse (gen (chunkPrompt template limit 0 c0)) = .ok (Json.obj d0) ∧
      ∀ k, k ∈ r.1.map Prod.fst ↔ k ∈ d0.map Prod.fst ∨ k = totInKey ∨ k = totOutKey := by
  have hrun : processBatchesToMetadata limit count gen batches template filesRef =
      multiChunkRun limit count gen template filesRef (c0 :: c1 :: rest) := by
    rw [processBatchesToMetadata, hj]
  rw [hrun] at hok
  have hresp : (extractChunks limit count gen template (c0 :: c1 :: rest) 0).map
      CallRec.response =
      gen (chunkPrompt template limit 0 c0) ::
        (extractChunks limit count gen template (c1 :: rest) 1).map CallRec.response := by
    simp [extractChunks]
  simp only [multiChunkRun] at hok
  rw [hresp] at hok
  cases hp : parseChunks (gen (chunkPrompt template limit 0 c0) ::
      (extractChunks limit count gen template (c1 :: rest) 1).map CallRec.response) with
  | error e => rw [hp] at hok; simp at hok
  | ok bjs =>
    rw [hp] at hok
    obtain ⟨v, vs, rfl, hv0, hvs⟩ := parseChunks_cons_ok _ _ _ hp
    cases v with
    | obj d0 =>
      simp only [multiFinish] at hok
      obtain ⟨md, ti', tOut', tr, hrl, hreq⟩ := finishReduce_ok _ _ hok
      subst hreq
      refine ⟨d0, hv0, ?_⟩
      intro k
      have hkeys := reduceLoop_ok_keys count gen filesRef (Json.obj d0 :: vs)
        (d0.map Prod.fst) _ _ _ _ _ _ _ _ hrl k
      simp only [List.map_nil, List.not_mem_nil, false_or] at hkeys
      show k ∈ (dictSet (dictSet md totInKey _) totOutKey _).map Prod.fst ↔ _
      rw [dictSet_keys_mem, dictSet_keys_mem, hkeys]
      tauto
    | str s => simp [multiFinish] at hok
    | num n => simp [multiFinish] at hok
    | bool b => simp [multiFinish] at hok
    | null => simp [multiFinish] at hok
    | arr vs2 => simp [multiFinish] at hok

/-- Witness for `multiChunk_keys_from_first_chunk` at a concrete two-chunk
run. -/
theorem multiChunk_keys_from_first_chunk_witness :
    joinBatches 3 ["aa".toList, "bb".toList] = ["aa".toList, "bb".toList] ∧
    (processBatchesToMetadata 3 count0 genTitleX ["aa".toList, "bb".toList]
        "T".toList []).result =
      .ok ([("title".toList, Json.str "X".toList), (totInKey, Json.num 0),
        (totOutKey, Json.num 0)], 0, 0) ∧
    ∃ d0, parseChunkResponse (genTitleX (chunkPrompt "T".toList 3 0 "aa".toList)) =
        .ok (Json.obj d0) ∧
      ∀ k, k ∈ (([("title".toList, Json.str "X".toList), (totInKey, Json.num 0),
          (totOutKey, Json.num 0)], (0 : Nat), (0 : Nat)) :
            List (List Char × Json) × Nat × Nat).1.map Prod.fst ↔
        k ∈ d0.map Prod.fst ∨ k = totInKey ∨ k = totOutKey :=
  ⟨by decide, by rfl, multiChunk_keys_from_first_chunk 3 count0 genTitleX
    ["aa".toList, "bb".toList] "T".toList [] "aa".toList "bb".toList [] (by decide)
    _ (by rfl)⟩

end DocAnalyzer
